import Mathlib

/-!
Verification development for the sales-insights API.

This file gives a shallow embedding of the repository's core pipeline:
the record-store query (`get_sales_data` / the top-products aggregate in
`main.py`), the context formatter (`format_context`), the insight
generator (`analyze_sales`), the ORM validators in `models.py`, and the
request-handler wiring of `main.py`.  Machine-level Python values are
modelled with `Nat`/`Int`/`Rat`; monetary columns (`Numeric(10,2)`) are
modelled in integer cents; fallible code returns `Except`.
-/

set_option maxHeartbeats 1000000

deriving instance DecidableEq for Except

/-- Naive calendar timestamp as stored in the `sale_date` column, at the
minute resolution used by the source's `%d/%m/%Y %H:%M` rendering. -/
structure DateTime where
  year : Nat
  month : Nat
  day : Nat
  hour : Nat
  minute : Nat
deriving DecidableEq

/-- Radix linearization of a `DateTime`; on calendar-valid field values
(month 1..12, day 1..31, hour < 24, minute < 60) it induces exactly
Python's field-lexicographic `datetime` comparison order. -/
def DateTime.lin (d : DateTime) : Nat :=
  (((d.year * 13 + d.month) * 32 + d.day) * 24 + d.hour) * 60 + d.minute

/-- Day number of a proleptic-Gregorian civil date (Hinnant's
days-from-civil algorithm), used to embed `timedelta` day arithmetic. -/
def daysFromCivil (y m d : Nat) : Nat :=
  let y2 := if m ≤ 2 then y - 1 else y
  let era := y2 / 400
  let yoe := y2 % 400
  let mp := (m + 9) % 12
  let doy := (153 * mp + 2) / 5 + d - 1
  let doe := yoe * 365 + yoe / 4 - yoe / 100 + doy
  era * 146097 + doe

/-- Civil date of a day number (Hinnant's civil-from-days algorithm). -/
def civilFromDays (z : Nat) : Nat × Nat × Nat :=
  let era := z / 146097
  let doe := z % 146097
  let yoe := (doe - doe / 1460 + doe / 36524 - doe / 146096) / 365
  let y := yoe + era * 400
  let doy := doe - (365 * yoe + yoe / 4 - yoe / 100)
  let mp := (5 * doy + 2) / 153
  let d := doy - (153 * mp + 2) / 5 + 1
  let m := if mp < 10 then mp + 3 else mp - 9
  (if m ≤ 2 then y + 1 else y, m, d)

/-- Embeds `datetime.now() - timedelta(days=days)`: shifts the calendar
date back by `days` days keeping the time of day. -/
def DateTime.subDays (dt : DateTime) (days : Nat) : DateTime :=
  let z := daysFromCivil dt.year dt.month dt.day - days
  let c := civilFromDays z
  ⟨c.1, c.2.1, c.2.2, dt.hour, dt.minute⟩

/-- Row of the `products` table (`app/models.py`, class `Product`).
The `price` column (`Numeric(10,2)`) is held in integer cents. -/
structure Product where
  id : Nat
  sku : String
  name : String
  description : Option String
  category : Option String
  price : Nat
  stock_quantity : Nat
deriving DecidableEq

/-- Row of the `sales` table (`app/models.py`, class `Sale`).  Monetary
columns are held in integer cents. -/
structure Sale where
  id : Nat
  product_id : Nat
  customer_id : Option Nat
  quantity : Nat
  unit_price : Nat
  total_amount : Nat
  sale_date : DateTime
  payment_method : Option String
deriving DecidableEq

/-- Contents of the relational store visible to the queries under
verification (the `customers` table is not read by them). -/
structure Database where
  products : List Product
  sales : List Sale
deriving DecidableEq

/-- Response row of the `/top-products` endpooint (`TopProductResponse`
in `app/main.py`); `revenue` in integer cents. -/
structure TopProductResponse where
  product : String
  total_sold : Nat
  revenue : Nat
deriving DecidableEq

/-- Insert into a list kept in non-increasing `key` order; helper giving
the semantics of the SQL `ORDER BY ... DESC` clauses in the source. -/
def insertKeyDesc {α : Type} (key : α → Nat) (x : α) : List α → List α
  | [] => [x]
  | y :: ys => if key y ≤ key x then x :: y :: ys else y :: insertKeyDesc key x ys

/-- Sort a list into non-increasing `key` order (`ORDER BY ... DESC`). -/
def sortKeyDesc {α : Type} (key : α → Nat) : List α → List α
  | [] => []
  | x :: xs => insertKeyDesc key x (sortKeyDesc key xs)

/-- First-occurrence deduplication with an accumulator of already seen
keys; gives the semantics of the SQL `GROUP BY` key list. -/
def dedupSeen : List String → List String → List String
  | [], _ => []
  | x :: xs, seen => if x ∈ seen then dedupSeen xs seen else x :: dedupSeen xs (x :: seen)

/-- Distinct grouping keys of a list, first occurrence kept. -/
def dedupKeepFirst (l : List String) : List String := dedupSeen l []

/-- Inner join `select(Sale, Product).join(Product, Sale.product_id ==
Product.id)` over the store contents. -/
def joined_rows (db : Database) : List (Sale × Product) :=
  db.sales.flatMap (fun s => (db.products.filter (fun p => p.id == s.product_id)).map (fun p => (s, p)))

/-- Joined rows restricted by `.where(Sale.sale_date >= start_date)` with
`start_date = datetime.now() - timedelta(days=days)`. -/
def window_rows (db : Database) (now : DateTime) (days : Nat) : List (Sale × Product) :=
  (joined_rows db).filter (fun rp => decide ((now.subDays days).lin ≤ rp.1.sale_date.lin))

/-- Embeds the query of `SalesAnalyzer._get_sales_data` in
`app/services/sales_analyzer.py`: time-windowed inner join ordered by
`Sale.sale_date.desc()`. -/
def fetch_recent_sales (db : Database) (now : DateTime) (days : Nat) : List (Sale × Product) :=
  sortKeyDesc (fun rp => rp.1.sale_date.lin) (window_rows db now days)

/-- Summed quantity (`func.sum(models.Sale.quantity)`) of the window rows
grouped under product name `n`. -/
def group_qty (db : Database) (now : DateTime) (days : Nat) (n : String) : Nat :=
  (((window_rows db now days).filter (fun rp => rp.2.name == n)).map (fun rp => rp.1.quantity)).sum

/-- Summed revenue (`func.sum(models.Sale.total_amount)`) of the window
rows grouped under product name `n`, in cents. -/
def group_rev (db : Database) (now : DateTime) (days : Nat) (n : String) : Nat :=
  (((window_rows db now days).filter (fun rp => rp.2.name == n)).map (fun rp => rp.1.total_amount)).sum

/-- Grouping keys produced by `.group_by(models.Product.name)` over the
window rows. -/
def group_names (db : Database) (now : DateTime) (days : Nat) : List String :=
  dedupKeepFirst ((window_rows db now days).map (fun rp => rp.2.name))

/-- Embeds the aggregate query of the `top_products` handler in
`app/main.py`: group by product name, order by summed quantity
descending, truncate to `limit`. -/
def top_products_query (db : Database) (now : DateTime) (days : Nat) (limit : Nat) : List (String × Nat × Nat) :=
  (sortKeyDesc (fun t => t.2.1)
    ((group_names db now days).map (fun n => (n, group_qty db now days n, group_rev db now days n)))).take limit

/-- Embeds the response mapping of the `top_products` handler: each
aggregate row becomes a `TopProductResponse` record. -/
def top_products_response (db : Database) (now : DateTime) (days : Nat) (limit : Nat) : List TopProductResponse :=
  (top_products_query db now days limit).map (fun t => ⟨t.1, t.2.1, t.2.2⟩)

/-- Decimal digit character for a value below ten. -/
def digitChar : Nat → Char
  | 0 => '0'
  | 1 => '1'
  | 2 => '2'
  | 3 => '3'
  | 4 => '4'
  | 5 => '5'
  | 6 => '6'
  | 7 => '7'
  | 8 => '8'
  | 9 => '9'
  | _ => '0'

/-- Fuelled accumulator loop of the decimal rendering of a natural
number; the fuel passed by `natRepr` always suffices. -/
def natReprCore : Nat → Nat → List Char → List Char
  | 0, _, acc => acc
  | fuel + 1, n, acc =>
    if n = 0 then acc
    else natReprCore fuel (n / 10) (digitChar (n % 10) :: acc)

/-- Decimal rendering of a natural number, embedding Python's integer
formatting inside f-strings. -/
def natRepr (n : Nat) : String :=
  if n = 0 then "0" else String.mk (natReprCore (n + 1) n [])

/-- Two-digit zero-padded rendering (strftime `%d`, `%m`, `%H`, `%M`). -/
def pad2 (n : Nat) : String :=
  if n < 10 then "0" ++ natRepr n else natRepr n

/-- Four-digit zero-padded rendering (strftime `%Y` on 4-digit years). -/
def pad4 (n : Nat) : String :=
  if n < 10 then "000" ++ natRepr n
  else if n < 100 then "00" ++ natRepr n
  else if n < 1000 then "0" ++ natRepr n
  else natRepr n

/-- Python `f"{amount:.2f}"` on a 2-decimal monetary value held in
integer cents: integer part, a dot, exactly two fractional digits. -/
def fmt_money_2f (cents : Nat) : String :=
  natRepr (cents / 100) ++ "." ++ pad2 (cents % 100)

/-- Python `sale_date.strftime("%d/%m/%Y %H:%M")`. -/
def strftime_ddmmyyyy_hhmm (d : DateTime) : String :=
  pad2 d.day ++ "/" ++ pad2 d.month ++ "/" ++ pad4 d.year ++ " " ++
    pad2 d.hour ++ ":" ++ pad2 d.minute

/-- Single context line produced for one `(sale, product)` row by
`SalesAnalyzer._format_context` in `app/services/sales_analyzer.py`. -/
def render_line (rp : Sale × Product) : String :=
  "- " ++ rp.2.name ++ ": " ++ natRepr rp.1.quantity ++ " unid. (R$" ++
    fmt_money_2f rp.1.total_amount ++ ") em " ++ strftime_ddmmyyyy_hhmm rp.1.sale_date

/-- Python `"\n".join(lines)`. -/
def joinLines : List String → String
  | [] => ""
  | [x] => x
  | x :: y :: ys => x ++ "\n" ++ joinLines (y :: ys)

/-- Embeds `SalesAnalyzer._format_context`: the fixed no-data sentinel on
an empty row sequence, otherwise one rendered line per row joined by a
single newline. -/
def format_context (sales_data : List (Sale × Product)) : String :=
  if sales_data.isEmpty then "Nenhuma venda registrada no período solicitado."
  else joinLines (sales_data.map render_line)

/-- Prompt template of `SalesAnalyzer._create_analysis_chain` in
`app/services/sales_analyzer.py`. -/
def analysis_template : String :=
  "\n            Você é um especialista em análise de vendas. \n            Responda à pergunta com base estritamente nos dados fornecidos.\n            \n            Diretrizes:\n            1. Seja conciso e preciso\n            2. Formate números e datas claramente\n            3. Se não houver dados relevantes, informe \"Não há dados suficientes\"\n            4. Nunca invente informações\n            \n            Pergunta: {question}\n            \n            Dados de vendas do período:\n            {context}\n            \n            Resposta:\n            "

/-- Verbatim substitution of the question and the rendered context into
the template, as performed by `PromptTemplate`/`LLMChain.arun`. -/
def prompt_format (question context : String) : String :=
  (analysis_template.replace "{question}" question).replace "{context}" context

/-- Python exception values relevant to the embedded code paths. -/
inductive PyErr where
  | httpExc (code : Nat) (detail : String)
  | typeError (msg : String)
  | nameError (msg : String)
  | runtimeError (msg : String)
  | valueError (msg : String)
  | otherExc (msg : String)
deriving DecidableEq

/-- Embeds `SalesAnalyzer._get_sales_data`: a storage-engine failure is
caught and re-signalled as the classified operational error
`HTTPException(500, "Erro ao acessar dados históricos de vendas")`. -/
def get_sales_data (storage : Except String (List (Sale × Product))) :
    Except PyErr (List (Sale × Product)) :=
  match storage with
  | Except.error _ => Except.error (PyErr.httpExc 500 "Erro ao acessar dados históricos de vendas")
  | Except.ok rows => Except.ok rows

/-- Exception policy of the `try/except` in `SalesAnalyzer.analyze_sales`:
`except HTTPException: raise` passes classified errors through unchanged,
any other exception is re-wrapped as the generic insight failure. -/
def reclassify_analysis_error : PyErr → PyErr
  | PyErr.httpExc code detail => PyErr.httpExc code detail
  | _ => PyErr.httpExc 500 "Erro ao gerar insights de vendas"

/-- Successful payload of `SalesAnalyzer.analyze_sales`. -/
structure AnalyzeResult where
  answer : String
  context_used : String
deriving DecidableEq

/-- Observable outcome of one `analyze_sales` call: its returned value or
exception, whether the text-generation capability was invoked, and the
prompt it was sent if so. -/
structure AnalyzeOutcome where
  result : Except PyErr AnalyzeResult
  llm_called : Bool
  prompt_sent : Option String
deriving DecidableEq

/-- Embeds `SalesAnalyzer.analyze_sales` in
`app/services/sales_analyzer.py`: fetch the window rows, format the
context, send the composed prompt to the provider, trim and return the
answer together with the context used; classified errors pass through,
anything else is re-wrapped. -/
def analyze_sales (question : String) (storage : Except String (List (Sale × Product)))
    (llm : String → Except PyErr String) : AnalyzeOutcome :=
  match get_sales_data storage with
  | Except.error e => ⟨Except.error (reclassify_analysis_error e), false, none⟩
  | Except.ok sales_data =>
    let context := format_context sales_data
    let prompt := prompt_format question context
    match llm prompt with
    | Except.error e => ⟨Except.error (reclassify_analysis_error e), true, some prompt⟩
    | Except.ok response => ⟨Except.ok ⟨response.trim, context⟩, true, some prompt⟩

/-- Provider client state built by the LLM-initialization step. -/
structure ChatOpenAI where
  temperature : Nat
  model_name : String
  openai_api_key : String
deriving DecidableEq

/-- Embeds the LLM-initialization method of `SalesAnalyzer` in
`app/services/sales_analyzer.py`: a missing or empty
`OPENAI_API_KEY` environment value is fatal. -/
def init_llm (env : String → Option String) : Except PyErr ChatOpenAI :=
  match env "OPENAI_API_KEY" with
  | none => Except.error (PyErr.runtimeError "OpenAI API key not configured")
  | some key =>
    if key = "" then Except.error (PyErr.runtimeError "OpenAI API key not configured")
    else Except.ok ⟨0, "gpt-3.5-turbo", key⟩

/-- Constructed analyzer instance: the provider client plus the fixed
analysis chain template. -/
structure ServiceAnalyzer where
  llm : ChatOpenAI
  chain_template : String
deriving DecidableEq

/-- Embeds `SalesAnalyzer.__init__` in `app/services/sales_analyzer.py`:
initialize the LLM (validating the credential), then create the chain. -/
def sales_analyzer_init (env : String → Option String) : Except PyErr ServiceAnalyzer :=
  match init_llm env with
  | Except.error e => Except.error e
  | Except.ok llm => Except.ok ⟨llm, analysis_template⟩

/-- Round half to even (Python's `round`), on a rational scaled input. -/
def round_half_even (x : ℚ) : ℤ :=
  if x - (⌊x⌋ : ℚ) < 1/2 then ⌊x⌋
  else if (1 : ℚ)/2 < x - (⌊x⌋ : ℚ) then ⌊x⌋ + 1
  else if ⌊x⌋ % 2 = 0 then ⌊x⌋ else ⌊x⌋ + 1

/-- Embeds `Sale.validate_quantity` in `app/models.py`. -/
def validate_quantity (quantity : Int) : Except String Int :=
  if quantity ≤ 0 then Except.error "Quantity must be positive" else Except.ok quantity

/-- Embeds `Sale.validate_prices` in `app/models.py`: reject non-positive
input, store the input rounded (half to even) to 2 fractional digits. -/
def validate_prices (price : ℚ) : Except String ℚ :=
  if price ≤ 0 then Except.error "Price must be positive"
  else Except.ok ((round_half_even (100 * price) : ℚ) / 100)

/-- Character class `[A-Z0-9-]` of the SKU pattern. -/
def skuClassChar (c : Char) : Bool :=
  (65 ≤ c.toNat && c.toNat ≤ 90) || (48 ≤ c.toNat && c.toNat ≤ 57) || c == '-'

/-- Characters the anchored pattern must cover: the whole string, less
one trailing newline if present, since Python's `$` also matches just
before a newline at the end of the string. -/
def sku_core (s : String) : List Char :=
  if s.data.getLast? = some '\n' then s.data.dropLast else s.data

/-- Embeds Python `re.match(r"^[A-Z0-9-]+$", s)` truthiness. -/
def re_match_sku (s : String) : Bool :=
  !(sku_core s).isEmpty && (sku_core s).all skuClassChar

/-- Embeds `Product.validate_sku` in `app/models.py`. -/
def validate_sku (sku : String) : Except String String :=
  if re_match_sku sku then Except.ok sku
  else Except.error "SKU must contain only uppercase letters, numbers and hyphens"

/-- Python positional-argument values passed in the embedded calls. -/
inductive PyVal where
  | pyStr (s : String)
  | pyInt (n : Nat)
deriving DecidableEq

/-- Bound method together with its declared positional arity (excluding
`self`). -/
structure PyMethod (α : Type) where
  positional_params : Nat
  run : List PyVal → Except PyErr α

/-- Python call semantics for a bound method: an argument-count mismatch
raises `TypeError` before the body runs. -/
def pyCallMethod {α : Type} (m : PyMethod α) (args : List PyVal) : Except PyErr α :=
  if args.length = m.positional_params then m.run args
  else Except.error (PyErr.typeError ("takes " ++ natRepr (m.positional_params + 1) ++
    " positional arguments but " ++ natRepr (args.length + 1) ++ " were given"))

/-- Signature of `SalesAnalyzer.analyze_sales_question` in
`app/langchain_service.py`: exactly one positional parameter
(`question`) besides `self`; `impl` stands for its body. -/
def analyze_sales_question_sig (impl : List PyVal → Except PyErr String) : PyMethod String :=
  ⟨1, impl⟩

/-- Response record declared by `SalesInsightResponse` in `app/main.py`
(its `context_used` field is optional and left unset by the handler). -/
structure SalesInsightResponseMain where
  answer : String
  context_used : Option String
deriving DecidableEq

/-- Embeds the `sales_insights` handler in `app/main.py`: construct the
analyzer, call `analyze_sales_question(question, days)` with two
arguments, and convert any exception into the generic 500 response. -/
def sales_insights_handler (question : String) (days : Nat)
    (ctor : Except PyErr (List PyVal → Except PyErr String)) :
    Except PyErr SalesInsightResponseMain :=
  match ctor with
  | Except.error _ => Except.error (PyErr.httpExc 500 "Error processing your question")
  | Except.ok impl =>
    match pyCallMethod (analyze_sales_question_sig impl) [PyVal.pyStr question, PyVal.pyInt days] with
    | Except.error _ => Except.error (PyErr.httpExc 500 "Error processing your question")
    | Except.ok response => Except.ok ⟨response, none⟩

/-- Global names defined or imported at module level in `app/main.py`. -/
def main_module_globals : List String :=
  ["FastAPI", "Query", "HTTPException", "Depends", "CORSMiddleware", "AsyncSession",
   "select", "func", "datetime", "timedelta", "List", "Dict", "Optional", "logging",
   "engine", "SessionLocal", "models", "SalesAnalyzer", "BaseModel", "logger", "app",
   "TopProductResponse", "SalesInsightResponse", "get_db", "startup", "shutdown",
   "sales_insights", "top_products", "health_check"]

/-- Python global-name resolution in the `app/main.py` module namespace:
an unbound name raises `NameError`. -/
def resolveMainGlobal (n : String) : Except PyErr Unit :=
  if n ∈ main_module_globals then Except.ok ()
  else Except.error (PyErr.nameError ("name " ++ n ++ " is not defined"))

/-- Embeds the `get_db` dependency in `app/main.py`: it first evaluates
the global name `async_session` to obtain the session factory, then
acquires a session from it. -/
def get_db {α : Type} (acquire : Unit → Except PyErr α) : Except PyErr α :=
  match resolveMainGlobal "async_session" with
  | Except.error e => Except.error e
  | Except.ok u => acquire u

/-- Embeds the `top_products` handler in `app/main.py` together with its
`Depends(get_db)` wiring: the dependency is resolved first and a failure
there propagates before the handler body (and hence the aggregate query,
tracked by the boolean) ever runs. -/
def top_products_endpoint {α : Type} (days limit : Nat) (acquire : Unit → Except PyErr α)
    (runQuery : α → Nat → Nat → Except PyErr (List TopProductResponse)) :
    Except PyErr (List TopProductResponse) × Bool :=
  match get_db acquire with
  | Except.error e => (Except.error e, false)
  | Except.ok db =>
    match runQuery db days limit with
    | Except.error _ => (Except.error (PyErr.httpExc 500 "Error fetching top products"), true)
    | Except.ok res => (Except.ok res, true)

/-- C1: if the record-store fetch inside `analyze_sales` fails, the
classified operational error raised by the accessor (`HTTPException 500`
with the accessor's own detail) is surfaced unchanged — not re-wrapped
into the generic insight failure and not turned into a success — and the
text-generation capability is never invoked; moreover the exception
policy of `analyze_sales` passes every already-classified error through
unchanged. -/
theorem C1_classified_fetch_error_propagates :
    (∀ (question msg : String) (llm : String → Except PyErr String),
      analyze_sales question (Except.error msg) llm =
        ⟨Except.error (PyErr.httpExc 500 "Erro ao acessar dados históricos de vendas"),
          false, none⟩) ∧
    (∀ (code : Nat) (detail : String),
      reclassify_analysis_error (PyErr.httpExc code detail) = PyErr.httpExc code detail) := by
  constructor
  · intro question msg llm
    rfl
  · intro code detail
    rfl

/-- C6: on success, `analyze_sales` returns the provider's text with
leading and trailing whitespace trimmed as `answer`, and `context_used`
is exactly the formatted context that was substituted into the prompt
sent to the provider. -/
theorem C6_success_trims_answer_and_reports_context :
    ∀ (question : String) (rows : List (Sale × Product)) (gen : String → String),
      analyze_sales question (Except.ok rows) (fun p => Except.ok (gen p)) =
        ⟨Except.ok ⟨(gen (prompt_format question (format_context rows))).trim,
            format_context rows⟩,
          true, some (prompt_format question (format_context rows))⟩ := by
  intro question rows gen
  rfl

/-- C5: constructing the analyzer with the provider credential absent
from the process configuration (unset or empty `OPENAI_API_KEY`) fails
at construction time with the fatal configuration error, and with a
credential present construction succeeds — the check is performed by the
constructor, not deferred to request handling. -/
theorem C5_missing_credential_fails_construction :
    (∀ env : String → Option String,
      env "OPENAI_API_KEY" = none ∨ env "OPENAI_API_KEY" = some "" →
        sales_analyzer_init env =
          Except.error (PyErr.runtimeError "OpenAI API key not configured")) ∧
    (∀ (env : String → Option String) (key : String),
      env "OPENAI_API_KEY" = some key → key ≠ "" →
        sales_analyzer_init env = Except.ok ⟨⟨0, "gpt-3.5-turbo", key⟩, analysis_template⟩) := by
  constructor
  · intro env h
    rcases h with h | h <;> simp [sales_analyzer_init, init_llm, h]
  · intro env key h hk
    simp [sales_analyzer_init, init_llm, h, hk]

/-- Witness for C5 at concrete environments: a configuration without the
credential fails construction, one with a credential succeeds. -/
theorem C5_missing_credential_witness :
    sales_analyzer_init (fun _ => none) =
        Except.error (PyErr.runtimeError "OpenAI API key not configured") ∧
    sales_analyzer_init (fun _ => some "sk-test") =
        Except.ok ⟨⟨0, "gpt-3.5-turbo", "sk-test"⟩, analysis_template⟩ :=
  ⟨C5_missing_credential_fails_construction.1 (fun _ => none) (Or.inl rfl),
   C5_missing_credential_fails_construction.2 (fun _ => some "sk-test") "sk-test" rfl
     (by decide)⟩

/-- C9: the question-answering handler in `main.py` can never return a
successful insight: whatever the analyzer construction yields, the
handler answers with the generic 500 response, and whenever construction
succeeds the two-argument call of the one-parameter method
`analyze_sales_question` raises the arity `TypeError`. -/
theorem C9_insights_endpoint_always_fails :
    (∀ (question : String) (days : Nat)
        (ctor : Except PyErr (List PyVal → Except PyErr String)),
      sales_insights_handler question days ctor =
        Except.error (PyErr.httpExc 500 "Error processing your question")) ∧
    (∀ (impl : List PyVal → Except PyErr String) (question : String) (days : Nat),
      pyCallMethod (analyze_sales_question_sig impl) [PyVal.pyStr question, PyVal.pyInt days] =
        Except.error (PyErr.typeError "takes 2 positional arguments but 3 were given")) := by
  constructor
  · intro question days ctor
    cases ctor with
    | error e => rfl
    | ok impl => rfl
  · intro impl question days
    have h2 : [PyVal.pyStr question, PyVal.pyInt days].length = 2 := rfl
    unfold pyCallMethod analyze_sales_question_sig
    rw [h2]
    dsimp only
    rw [if_neg (by decide)]
    decide

/-- C10: the `get_db` dependency in `main.py` references the unbound
global name `async_session`, so every call raises a `NameError` before a
session is acquired, and the `top-products` endpoint that depends on it
propagates that failure without ever executing its aggregate query. -/
theorem C10_get_db_raises_name_error :
    (∀ (α : Type) (acquire : Unit → Except PyErr α),
      get_db acquire = Except.error (PyErr.nameError "name async_session is not defined")) ∧
    (∀ (α : Type) (days limit : Nat) (acquire : Unit → Except PyErr α)
        (runQuery : α → Nat → Nat → Except PyErr (List TopProductResponse)),
      top_products_endpoint days limit acquire runQuery =
        (Except.error (PyErr.nameError "name async_session is not defined"), false)) := by
  constructor
  · intro α acquire
    rfl
  · intro α days limit acquire runQuery
    rfl

theorem perm_insertKeyDesc {α : Type} (key : α → Nat) (x : α) :
    ∀ l : List α, List.Perm (insertKeyDesc key x l) (x :: l)
  | [] => List.Perm.refl _
  | y :: ys => by
    simp only [insertKeyDesc]
    split
    · exact List.Perm.refl _
    · exact (List.Perm.cons y (perm_insertKeyDesc key x ys)).trans (List.Perm.swap x y ys)

theorem perm_sortKeyDesc {α : Type} (key : α → Nat) :
    ∀ l : List α, List.Perm (sortKeyDesc key l) l
  | [] => List.Perm.refl _
  | x :: xs => (perm_insertKeyDesc key x _).trans (List.Perm.cons x (perm_sortKeyDesc key xs))

theorem pairwise_insertKeyDesc {α : Type} (key : α → Nat) (x : α) :
    ∀ l : List α, List.Pairwise (fun a b => key b ≤ key a) l →
      List.Pairwise (fun a b => key b ≤ key a) (insertKeyDesc key x l)
  | [], _ => by simp [insertKeyDesc]
  | y :: ys, h => by
    rcases List.pairwise_cons.mp h with ⟨hy, hys⟩
    simp only [insertKeyDesc]
    split
    next hle =>
      refine List.pairwise_cons.mpr ⟨?_, h⟩
      intro b hb
      rcases List.mem_cons.mp hb with rfl | hb
      · exact hle
      · exact le_trans (hy b hb) hle
    next hle =>
      refine List.pairwise_cons.mpr ⟨?_, pairwise_insertKeyDesc key x ys hys⟩
      intro b hb
      rcases List.mem_cons.mp ((perm_insertKeyDesc key x ys).mem_iff.mp hb) with rfl | hb
      · exact Nat.le_of_not_le hle
      · exact hy b hb

theorem pairwise_sortKeyDesc {α : Type} (key : α → Nat) :
    ∀ l : List α, List.Pairwise (fun a b => key b ≤ key a) (sortKeyDesc key l)
  | [] => List.Pairwise.nil
  | x :: xs => pairwise_insertKeyDesc key x _ (pairwise_sortKeyDesc key xs)

theorem mem_window_rows {db : Database} {now : DateTime} {days : Nat} {rp : Sale × Product}
    (h : rp ∈ window_rows db now days) :
    rp.1 ∈ db.sales ∧ rp.2 ∈ db.products ∧ rp.2.id = rp.1.product_id ∧
      (now.subDays days).lin ≤ rp.1.sale_date.lin := by
  rcases List.mem_filter.mp h with ⟨hj, hd⟩
  have hdate := of_decide_eq_true hd
  rcases List.mem_flatMap.mp hj with ⟨s, hs, hmem⟩
  rcases List.mem_map.mp hmem with ⟨p, hp, heq⟩
  rcases List.mem_filter.mp hp with ⟨hpp, hid⟩
  have hid2 : p.id = s.product_id := by simpa using hid
  cases heq
  exact ⟨hs, hpp, hid2, hdate⟩

/-- C2: for every positive day-count, `fetch_recent_sales` returns only
rows whose sale date is at or after `now - days`, every returned sale is
inner-joined to a stored product whose id matches its `product_id` (so a
sale with no resolvable product never appears), and the sequence is
non-increasing by sale date. -/
theorem C2_fetch_recent_sales_window_join_order
    (db : Database) (now : DateTime) (days : Nat) (hdays : 0 < days) :
    (∀ rp ∈ fetch_recent_sales db now days,
      (now.subDays days).lin ≤ rp.1.sale_date.lin ∧
      rp.2.id = rp.1.product_id ∧ rp.2 ∈ db.products ∧ rp.1 ∈ db.sales) ∧
    List.Pairwise (fun a b => b.1.sale_date.lin ≤ a.1.sale_date.lin)
      (fetch_recent_sales db now days) ∧
    (∀ s : Sale, (∀ p ∈ db.products, p.id ≠ s.product_id) →
      ∀ p : Product, (s, p) ∉ fetch_recent_sales db now days) := by
  refine ⟨?_, ?_, ?_⟩
  · intro rp hrp
    rw [fetch_recent_sales] at hrp
    have hw : rp ∈ window_rows db now days :=
      (perm_sortKeyDesc _ _).mem_iff.mp hrp
    rcases mem_window_rows hw with ⟨h1, h2, h3, h4⟩
    exact ⟨h4, h3, h2, h1⟩
  · rw [fetch_recent_sales]
    exact pairwise_sortKeyDesc (fun rp : Sale × Product => rp.1.sale_date.lin) _
  · intro s hnone p hc
    rw [fetch_recent_sales] at hc
    have hw : (s, p) ∈ window_rows db now days :=
      (perm_sortKeyDesc _ _).mem_iff.mp hc
    rcases mem_window_rows hw with ⟨h1, h2, h3, h4⟩
    exact hnone p h2 h3

/-- Concrete product record used by the witnesses. -/
def productW : Product := ⟨1, "SKU-1", "Widget", none, none, 1000, 5⟩

/-- Concrete sale inside the query window used by the witnesses. -/
def saleW1 : Sale := ⟨1, 1, none, 3, 1000, 3000, ⟨2024, 1, 15, 10, 30⟩, none⟩

/-- Concrete earlier sale used by the witnesses. -/
def saleW2 : Sale := ⟨2, 1, none, 1, 1000, 1000, ⟨2024, 1, 14, 9, 0⟩, some "pix"⟩

/-- Concrete store contents used by the witnesses. -/
def dbW : Database := ⟨[productW], [saleW1, saleW2]⟩

/-- Concrete query instant used by the witnesses. -/
def nowW : DateTime := ⟨2024, 1, 15, 12, 0⟩

/-- Witness for C2 at a concrete store, instant and day-count. -/
theorem C2_fetch_recent_sales_witness :
    0 < 7 ∧
    ((∀ rp ∈ fetch_recent_sales dbW nowW 7,
      (nowW.subDays 7).lin ≤ rp.1.sale_date.lin ∧
      rp.2.id = rp.1.product_id ∧ rp.2 ∈ dbW.products ∧ rp.1 ∈ dbW.sales) ∧
    List.Pairwise (fun a b => b.1.sale_date.lin ≤ a.1.sale_date.lin)
      (fetch_recent_sales dbW nowW 7) ∧
    (∀ s : Sale, (∀ p ∈ dbW.products, p.id ≠ s.product_id) →
      ∀ p : Product, (s, p) ∉ fetch_recent_sales dbW nowW 7)) :=
  ⟨by decide, C2_fetch_recent_sales_window_join_order dbW nowW 7 (by decide)⟩

theorem mem_dedupSeen : ∀ (l seen : List String) (y : String),
    y ∈ dedupSeen l seen ↔ y ∈ l ∧ y ∉ seen
  | [], seen, y => by simp [dedupSeen]
  | x :: xs, seen, y => by
    simp only [dedupSeen]
    split
    next hx =>
      rw [mem_dedupSeen xs seen y]
      constructor
      · rintro ⟨h1, h2⟩
        exact ⟨List.mem_cons_of_mem x h1, h2⟩
      · rintro ⟨h1, h2⟩
        rcases List.mem_cons.mp h1 with rfl | h1
        · exact absurd hx h2
        · exact ⟨h1, h2⟩
    next hx =>
      constructor
      · intro h
        rcases List.mem_cons.mp h with rfl | h
        · exact ⟨List.mem_cons_self _ _, hx⟩
        · rcases (mem_dedupSeen xs (x :: seen) y).mp h with ⟨h1, h2⟩
          exact ⟨List.mem_cons_of_mem x h1, fun hs => h2 (List.mem_cons_of_mem x hs)⟩
      · rintro ⟨h1, h2⟩
        rcases List.mem_cons.mp h1 with rfl | h1
        · exact List.mem_cons_self _ _
        · by_cases hyx : y = x
          · subst hyx
            exact List.mem_cons_self _ _
          · refine List.mem_cons_of_mem x ((mem_dedupSeen xs (x :: seen) y).mpr ⟨h1, ?_⟩)
            intro hs
            rcases List.mem_cons.mp hs with h | h
            · exact hyx h
            · exact h2 h

theorem nodup_dedupSeen : ∀ (l seen : List String), (dedupSeen l seen).Nodup
  | [], _ => List.nodup_nil
  | x :: xs, seen => by
    simp only [dedupSeen]
    split
    · exact nodup_dedupSeen xs seen
    · refine List.nodup_cons.mpr ⟨?_, nodup_dedupSeen xs (x :: seen)⟩
      intro hx
      exact ((mem_dedupSeen xs (x :: seen) x).mp hx).2 (List.mem_cons_self _ _)

theorem mem_top_products_query {db : Database} {now : DateTime} {days limit : Nat}
    {t : String × Nat × Nat} (h : t ∈ top_products_query db now days limit) :
    t.1 ∈ (window_rows db now days).map (fun rp => rp.2.name) ∧
      t.2.1 = group_qty db now days t.1 ∧ t.2.2 = group_rev db now days t.1 := by
  rw [top_products_query] at h
  have hsorted := (List.take_sublist limit _).subset h
  have hgroups := (perm_sortKeyDesc _ _).mem_iff.mp hsorted
  rcases List.mem_map.mp hgroups with ⟨n, hn, heq⟩
  cases heq
  have hn2 := ((mem_dedupSeen _ _ _).mp hn).1
  exact ⟨hn2, rfl, rfl⟩

/-- C4: for every positive day-count and limit, the top-products
aggregate returns at most `limit` rows, the rows are grouped by product
name within the day window (each row's name occurs among the window rows
and carries the summed quantity and revenue of its group, with no name
repeated), and the `total_sold` values are non-increasing across the
returned sequence. -/
theorem C4_top_products_limit_group_order
    (db : Database) (now : DateTime) (days limit : Nat)
    (hdays : 0 < days) (hlimit : 0 < limit) :
    (top_products_response db now days limit).length ≤ limit ∧
    List.Pairwise (fun a b => b.total_sold ≤ a.total_sold)
      (top_products_response db now days limit) ∧
    ((top_products_response db now days limit).map (fun r => r.product)).Nodup ∧
    (∀ r ∈ top_products_response db now days limit,
      r.total_sold = group_qty db now days r.product ∧
      r.revenue = group_rev db now days r.product ∧
      r.product ∈ (window_rows db now days).map (fun rp => rp.2.name)) := by
  refine ⟨?_, ?_, ?_, ?_⟩
  · rw [top_products_response, List.length_map, top_products_query, List.length_take]
    exact min_le_left _ _
  · rw [top_products_response]
    refine List.pairwise_map.mpr ?_
    rw [top_products_query]
    exact List.Pairwise.sublist (List.take_sublist _ _)
      (pairwise_sortKeyDesc (fun t : String × Nat × Nat => t.2.1) _)
  · have hmm : (top_products_response db now days limit).map (fun r => r.product) =
        (top_products_query db now days limit).map (fun t => t.1) := by
      rw [top_products_response, List.map_map]
      rfl
    rw [hmm, top_products_query]
    refine List.Nodup.sublist ((List.take_sublist _ _).map _) ?_
    refine ((perm_sortKeyDesc _ _).map _).nodup_iff.mpr ?_
    rw [List.map_map]
    have hid : ((group_names db now days).map
        ((fun t : String × Nat × Nat => t.1) ∘
          fun n => (n, group_qty db now days n, group_rev db now days n))) =
        group_names db now days := List.map_id' _
    rw [hid]
    exact nodup_dedupSeen _ _
  · intro r hr
    rw [top_products_response] at hr
    rcases List.mem_map.mp hr with ⟨t, ht, heq⟩
    rcases mem_top_products_query ht with ⟨h1, h2, h3⟩
    cases heq
    exact ⟨h2, h3, h1⟩

/-- Witness for C4 at a concrete store, instant, day-count and limit. -/
theorem C4_top_products_witness :
    0 < 30 ∧ 0 < 5 ∧
    ((top_products_response dbW nowW 30 5).length ≤ 5 ∧
    List.Pairwise (fun a b => b.total_sold ≤ a.total_sold)
      (top_products_response dbW nowW 30 5) ∧
    ((top_products_response dbW nowW 30 5).map (fun r => r.product)).Nodup ∧
    (∀ r ∈ top_products_response dbW nowW 30 5,
      r.total_sold = group_qty dbW nowW 30 r.product ∧
      r.revenue = group_rev dbW nowW 30 r.product ∧
      r.product ∈ (window_rows dbW nowW 30).map (fun rp => rp.2.name))) :=
  ⟨by decide, by decide,
    C4_top_products_limit_group_order dbW nowW 30 5 (by decide) (by decide)⟩

theorem digitChar_isDigit : ∀ k : Nat, (digitChar k).isDigit = true
  | 0 => rfl
  | 1 => rfl
  | 2 => rfl
  | 3 => rfl
  | 4 => rfl
  | 5 => rfl
  | 6 => rfl
  | 7 => rfl
  | 8 => rfl
  | 9 => rfl
  | _ + 10 => rfl

theorem natReprCore_digits : ∀ (fuel n : Nat) (acc : List Char),
    (∀ c ∈ acc, c.isDigit = true) → ∀ c ∈ natReprCore fuel n acc, c.isDigit = true
  | 0, _, _, hacc => hacc
  | fuel + 1, n, acc, hacc => by
    simp only [natReprCore]
    split
    · exact hacc
    · refine natReprCore_digits fuel (n / 10) _ ?_
      intro c hc
      rcases List.mem_cons.mp hc with rfl | hc
      · exact digitChar_isDigit _
      · exact hacc c hc

theorem natReprCore_length : ∀ (fuel n : Nat) (acc : List Char),
    acc.length ≤ (natReprCore fuel n acc).length
  | 0, _, _ => le_refl _
  | fuel + 1, n, acc => by
    simp only [natReprCore]
    split
    · exact le_refl _
    · exact le_trans (Nat.le_succ _)
        (natReprCore_length fuel (n / 10) (digitChar (n % 10) :: acc))

theorem natRepr_digits (n : Nat) : ∀ c ∈ (natRepr n).data, c.isDigit = true := by
  rw [natRepr]
  split
  · intro c hc
    have hc0 : c = '0' := by simpa using hc
    subst hc0
    rfl
  · intro c hc
    exact natReprCore_digits (n + 1) n [] (by intro d hd; cases hd) c hc

theorem natRepr_ne_nil (n : Nat) : (natRepr n).data ≠ [] := by
  rw [natRepr]
  split
  · decide
  next hn =>
    show natReprCore (n + 1) n [] ≠ []
    have h1 : natReprCore (n + 1) n [] = natReprCore n (n / 10) [digitChar (n % 10)] := by
      simp [natReprCore, hn]
    rw [h1]
    intro hcon
    have h2 := natReprCore_length n (n / 10) [digitChar (n % 10)]
    rw [hcon] at h2
    simp at h2

theorem pad2_digits (n : Nat) : ∀ c ∈ (pad2 n).data, c.isDigit = true := by
  rw [pad2]
  split
  · intro c hc
    rw [String.data_append] at hc
    rcases List.mem_append.mp hc with hc | hc
    · have hc0 : c = '0' := by simpa using hc
      subst hc0
      rfl
    · exact natRepr_digits n c hc
  · exact natRepr_digits n

theorem pad2_ne_nil (n : Nat) : (pad2 n).data ≠ [] := by
  rw [pad2]
  split
  · rw [String.data_append]
    intro h
    exact absurd (List.append_eq_nil.mp h).1 (by decide)
  · exact natRepr_ne_nil n

theorem pad4_digits (n : Nat) : ∀ c ∈ (pad4 n).data, c.isDigit = true := by
  rw [pad4]
  split
  · intro c hc
    rw [String.data_append] at hc
    rcases List.mem_append.mp hc with hc | hc
    · have hc0 : c = '0' := by simpa using hc
      subst hc0
      rfl
    · exact natRepr_digits n c hc
  · split
    · intro c hc
      rw [String.data_append] at hc
      rcases List.mem_append.mp hc with hc | hc
      · have hc0 : c = '0' := by simpa using hc
        subst hc0
        rfl
      · exact natRepr_digits n c hc
    · split
      · intro c hc
        rw [String.data_append] at hc
        rcases List.mem_append.mp hc with hc | hc
        · have hc0 : c = '0' := by simpa using hc
          subst hc0
          rfl
        · exact natRepr_digits n c hc
      · exact natRepr_digits n

/-- Absence of a newline character in a string. -/
def hasNoNL (s : String) : Prop := '\n' ∉ s.data

theorem hasNoNL_of_digits {s : String} (h : ∀ c ∈ s.data, c.isDigit = true) : hasNoNL s := by
  intro hmem
  exact absurd (h _ hmem) (by decide)

theorem hasNoNL_append {a b : String} (ha : hasNoNL a) (hb : hasNoNL b) : hasNoNL (a ++ b) := by
  unfold hasNoNL at ha hb ⊢
  rw [String.data_append]
  intro h
  rcases List.mem_append.mp h with h | h
  · exact ha h
  · exact hb h

theorem fmt_money_2f_hasNoNL (c : Nat) : hasNoNL (fmt_money_2f c) := by
  unfold fmt_money_2f
  exact hasNoNL_append
    (hasNoNL_append (hasNoNL_of_digits (natRepr_digits _)) (by unfold hasNoNL; decide))
    (hasNoNL_of_digits (pad2_digits _))

theorem strftime_hasNoNL (d : DateTime) : hasNoNL (strftime_ddmmyyyy_hhmm d) := by
  unfold strftime_ddmmyyyy_hhmm
  exact hasNoNL_append (hasNoNL_append (hasNoNL_append (hasNoNL_append (hasNoNL_append
    (hasNoNL_append (hasNoNL_append (hasNoNL_append
      (hasNoNL_of_digits (pad2_digits _)) (by unfold hasNoNL; decide))
      (hasNoNL_of_digits (pad2_digits _))) (by unfold hasNoNL; decide))
      (hasNoNL_of_digits (pad4_digits _))) (by unfold hasNoNL; decide))
      (hasNoNL_of_digits (pad2_digits _))) (by unfold hasNoNL; decide))
      (hasNoNL_of_digits (pad2_digits _))

theorem render_line_hasNoNL {rp : Sale × Product} (h : '\n' ∉ rp.2.name.data) :
    hasNoNL (render_line rp) := by
  unfold render_line
  exact hasNoNL_append (hasNoNL_append (hasNoNL_append (hasNoNL_append (hasNoNL_append
    (hasNoNL_append (hasNoNL_append (by unfold hasNoNL; decide) h) (by unfold hasNoNL; decide))
    (hasNoNL_of_digits (natRepr_digits _))) (by unfold hasNoNL; decide))
    (fmt_money_2f_hasNoNL _)) (by unfold hasNoNL; decide))
    (strftime_hasNoNL _)

theorem data_append_getLast? (a b : String) (h : b.data ≠ []) :
    (a ++ b).data.getLast? = b.data.getLast? := by
  rw [String.data_append]
  exact List.getLast?_append_of_ne_nil _ h

theorem data_append_ne_nil (a b : String) (h : b.data ≠ []) : (a ++ b).data ≠ [] := by
  rw [String.data_append]
  intro hcon
  exact h (List.append_eq_nil.mp hcon).2

theorem getLast?_digit_of_digits {l : List Char} (hne : l ≠ [])
    (hd : ∀ c ∈ l, c.isDigit = true) :
    ∃ c, l.getLast? = some c ∧ c.isDigit = true :=
  ⟨l.getLast hne, List.getLast?_eq_getLast_of_ne_nil hne, hd _ (List.getLast_mem hne)⟩

theorem strftime_last (d : DateTime) :
    (strftime_ddmmyyyy_hhmm d).data ≠ [] ∧
    (strftime_ddmmyyyy_hhmm d).data.getLast? = (pad2 d.minute).data.getLast? := by
  unfold strftime_ddmmyyyy_hhmm
  exact ⟨data_append_ne_nil _ _ (pad2_ne_nil _), data_append_getLast? _ _ (pad2_ne_nil _)⟩

theorem render_line_last (rp : Sale × Product) :
    (render_line rp).data ≠ [] ∧
    ∃ c, (render_line rp).data.getLast? = some c ∧ c.isDigit = true := by
  rcases strftime_last rp.1.sale_date with ⟨hne, heq⟩
  unfold render_line
  refine ⟨data_append_ne_nil _ _ hne, ?_⟩
  rw [data_append_getLast? _ _ hne, heq]
  exact getLast?_digit_of_digits (pad2_ne_nil _) (pad2_digits _)

theorem count_nl_joinLines : ∀ lines : List String, lines ≠ [] →
    (∀ s ∈ lines, hasNoNL s) → (joinLines lines).data.count '\n' = lines.length - 1
  | [], h, _ => absurd rfl h
  | [x], _, hs => by
    simp only [joinLines]
    rw [List.count_eq_zero.mpr (hs x (List.mem_cons_self _ _))]
    rfl
  | x :: y :: ys, _, hs => by
    have hx : hasNoNL x := hs x (List.mem_cons_self _ _)
    have hrest : ∀ s ∈ y :: ys, hasNoNL s := fun s h => hs s (List.mem_cons_of_mem x h)
    have ih := count_nl_joinLines (y :: ys) (by simp) hrest
    simp only [joinLines]
    rw [String.data_append, String.data_append, List.count_append, List.count_append]
    rw [List.count_eq_zero.mpr hx, ih]
    have h1 : (("\n" : String)).data.count '\n' = 1 := rfl
    rw [h1]
    simp only [List.length_cons]
    omega

theorem joinLines_data_ne_nil : ∀ lines : List String, lines ≠ [] →
    (∀ s ∈ lines, s.data ≠ []) → (joinLines lines).data ≠ []
  | [], h, _ => absurd rfl h
  | [x], _, hs => by
    simp only [joinLines]
    exact hs x (List.mem_cons_self _ _)
  | x :: y :: ys, _, hs => by
    have hrest : ∀ s ∈ y :: ys, s.data ≠ [] := fun s h => hs s (List.mem_cons_of_mem x h)
    simp only [joinLines]
    exact data_append_ne_nil _ _ (joinLines_data_ne_nil (y :: ys) (by simp) hrest)

theorem joinLines_getLast? : ∀ lines : List String, lines ≠ [] →
    (∀ s ∈ lines, s.data ≠ []) →
    ∃ lastline ∈ lines, (joinLines lines).data.getLast? = lastline.data.getLast?
  | [], h, _ => absurd rfl h
  | [x], _, _ => ⟨x, List.mem_cons_self _ _, by simp only [joinLines]⟩
  | x :: y :: ys, _, hs => by
    have hrest : ∀ s ∈ y :: ys, s.data ≠ [] := fun s h => hs s (List.mem_cons_of_mem x h)
    rcases joinLines_getLast? (y :: ys) (by simp) hrest with ⟨ll, hll, heq⟩
    refine ⟨ll, List.mem_cons_of_mem x hll, ?_⟩
    simp only [joinLines]
    rw [data_append_getLast? _ _ (joinLines_data_ne_nil (y :: ys) (by simp) hrest), heq]

theorem format_context_nonempty {l : List (Sale × Product)} (h : l ≠ []) :
    format_context l = joinLines (l.map render_line) := by
  have hemp : l.isEmpty = false := by
    cases l with
    | nil => exact absurd rfl h
    | cons a as => rfl
  rw [format_context, hemp]
  rfl

/-- Lemma: a two-digit zero-padded rendering of a value below one
hundred always has exactly two characters. -/
theorem pad2_length_two : ∀ k : Nat, k < 100 → (pad2 k).data.length = 2 := by decide

/-- C3: `format_context` on the empty sequence returns the fixed no-data
sentinel; on a non-empty sequence it is exactly the newline-join of one
rendered line per input row in input order, where each line is built
from the product name, the quantity, the total amount with exactly two
fractional digits and the `day/month/year hour:minute` timestamp; when
no product name contains a newline, the output has exactly one newline
between consecutive rows (so exactly one line per row) and no trailing
newline. -/
theorem C3_format_context_shape :
    format_context [] = "Nenhuma venda registrada no período solicitado." ∧
    (∀ l : List (Sale × Product), l ≠ [] →
      format_context l = joinLines (l.map render_line)) ∧
    (∀ rp : Sale × Product,
      render_line rp = "- " ++ rp.2.name ++ ": " ++ natRepr rp.1.quantity ++ " unid. (R$" ++
        fmt_money_2f rp.1.total_amount ++ ") em " ++ strftime_ddmmyyyy_hhmm rp.1.sale_date ∧
      fmt_money_2f rp.1.total_amount =
        natRepr (rp.1.total_amount / 100) ++ "." ++ pad2 (rp.1.total_amount % 100) ∧
      (pad2 (rp.1.total_amount % 100)).data.length = 2) ∧
    (∀ l : List (Sale × Product), l ≠ [] → (∀ rp ∈ l, '\n' ∉ rp.2.name.data) →
      (format_context l).data.count '\n' = l.length - 1 ∧
      (format_context l).data.getLast? ≠ some '\n') := by
  refine ⟨rfl, fun l hl => format_context_nonempty hl, ?_, ?_⟩
  · intro rp
    exact ⟨rfl, rfl, pad2_length_two _ (Nat.mod_lt _ (by decide))⟩
  · intro l hl hnl
    rw [format_context_nonempty hl]
    have hmapne : l.map render_line ≠ [] := by simpa using hl
    have hnoNL : ∀ s ∈ l.map render_line, hasNoNL s := by
      intro s hs
      rcases List.mem_map.mp hs with ⟨rp, hrp, rfl⟩
      exact render_line_hasNoNL (hnl rp hrp)
    constructor
    · rw [count_nl_joinLines _ hmapne hnoNL, List.length_map]
    · have hne : ∀ s ∈ l.map render_line, s.data ≠ [] := by
        intro s hs
        rcases List.mem_map.mp hs with ⟨rp, hrp, rfl⟩
        exact (render_line_last rp).1
      rcases joinLines_getLast? _ hmapne hne with ⟨ll, hll, heq⟩
      rw [heq]
      rcases List.mem_map.mp hll with ⟨rp, hrp, rfl⟩
      rcases (render_line_last rp).2 with ⟨c, hc, hcd⟩
      rw [hc]
      intro hcon
      have hcnl : c = '\n' := Option.some.inj hcon
      subst hcnl
      exact absurd hcd (by decide)

/-- Witness for C3 at a concrete non-empty row sequence. -/
theorem C3_format_context_witness :
    ([(saleW1, productW)] ≠ ([] : List (Sale × Product))) ∧
    (∀ rp ∈ [(saleW1, productW)], '\n' ∉ rp.2.name.data) ∧
    (format_context [(saleW1, productW)]).data.count '\n' = 0 ∧
    (format_context [(saleW1, productW)]).data.getLast? ≠ some '\n' := by
  have h := C3_format_context_shape.2.2.2 [(saleW1, productW)] (by decide) (by decide)
  exact ⟨by decide, by decide, h.1, h.2⟩

/-- Projection of a joined row onto the fields the context formatter
actually reads: product name, quantity, total amount, sale timestamp. -/
def relevant_fields (rp : Sale × Product) : String × Nat × Nat × DateTime :=
  (rp.2.name, rp.1.quantity, rp.1.total_amount, rp.1.sale_date)

theorem render_line_congr {a b : Sale × Product}
    (h : relevant_fields a = relevant_fields b) : render_line a = render_line b := by
  simp only [relevant_fields, Prod.mk.injEq] at h
  rcases h with ⟨h1, h2, h3, h4⟩
  unfold render_line
  rw [h1, h2, h3, h4]

theorem map_render_line_congr : ∀ l1 l2 : List (Sale × Product),
    l1.map relevant_fields = l2.map relevant_fields →
    l1.map render_line = l2.map render_line
  | [], [], _ => rfl
  | [], _ :: _, h => by simp at h
  | _ :: _, [], h => by simp at h
  | a :: as, b :: bs, h => by
    simp only [List.map_cons, List.cons.injEq] at h ⊢
    exact ⟨render_line_congr h.1, map_render_line_congr as bs h.2⟩

/-- C7: the context formatter is a pure deterministic total function of
its input sequence: repeated application yields identical output, and
(being a total Lean function) it returns a string on every input; its
output depends only on the fields it reads, so inputs that agree on
those fields row by row format to byte-identical strings. -/
theorem C7_format_context_deterministic :
    (∀ l : List (Sale × Product), format_context l = format_context l) ∧
    (∀ l1 l2 : List (Sale × Product),
      l1.map relevant_fields = l2.map relevant_fields →
      format_context l1 = format_context l2) := by
  refine ⟨fun l => rfl, ?_⟩
  intro l1 l2 h
  cases l1 with
  | nil =>
    cases l2 with
    | nil => rfl
    | cons b bs => simp at h
  | cons a as =>
    cases l2 with
    | nil => simp at h
    | cons b bs =>
      rw [format_context_nonempty (by simp), format_context_nonempty (by simp),
        map_render_line_congr (a :: as) (b :: bs) h]

/-- Product record differing from `productW` in id, SKU, description,
category, price and stock, but with the same name. -/
def productW2 : Product := ⟨2, "SKU-2", "Widget", some "desc", some "cat", 990, 7⟩

/-- Witness for C7 at two concrete row sequences that agree on the
formatter-relevant fields. -/
theorem C7_format_context_witness :
    ([(saleW1, productW)].map relevant_fields =
      [(saleW1, productW2)].map relevant_fields) ∧
    format_context [(saleW1, productW)] = format_context [(saleW1, productW2)] :=
  ⟨by decide, C7_format_context_deterministic.2 _ _ (by decide)⟩

/-- Counterexample to C8 as stated: the raw input 0.001 is strictly
positive, so `validate_prices` accepts it, yet the stored value —
0.001 rounded to 2 fractional digits — is 0.00, which is not positive.
Hence not every accepted sale carries a positive stored amount. -/
theorem C8_stored_price_zero_counterexample :
    validate_prices (1 / 1000 : ℚ) = Except.ok (0 : ℚ) ∧ ¬ (0 < (0 : ℚ)) := by
  constructor
  · unfold validate_prices
    rw [if_neg (by norm_num : ¬ ((1 : ℚ) / 1000 ≤ 0))]
    have hx : (100 : ℚ) * (1 / 1000) = 1 / 10 := by norm_num
    rw [hx]
    unfold round_half_even
    rw [(by norm_num : ⌊(1 : ℚ) / 10⌋ = (0 : ℤ))]
    rw [if_pos (by norm_num : (1 : ℚ) / 10 - ((0 : ℤ) : ℚ) < 1 / 2)]
    have hz : (((0 : ℤ) : ℚ)) / 100 = 0 := by norm_num
    rw [hz]
  · exact lt_irrefl 0

theorem round_half_even_nonneg {x : ℚ} (hx : 0 ≤ x) : 0 ≤ round_half_even x := by
  have hf : (0 : ℤ) ≤ ⌊x⌋ := Int.floor_nonneg.mpr hx
  unfold round_half_even
  split
  · exact hf
  · split
    · omega
    · split
      · exact hf
      · omega

/-- C8 amended: the quantity validator accepts exactly the positive
quantities unchanged; the price validator accepts exactly the inputs
that are positive before rounding and stores the input rounded half to
even to 2 fractional digits — a value that is non-negative and an exact
multiple of 0.01, but equal to 0.00 for inputs below 0.005; the SKU
validator accepts exactly the non-empty strings over `[A-Z0-9-]`,
optionally followed by one trailing newline (an artifact of `$`
matching before a final newline), and stores them unchanged. -/
theorem C8_validators_amended :
    (∀ q r : Int, validate_quantity q = Except.ok r → 0 < r ∧ r = q) ∧
    (∀ p r : ℚ, validate_prices p = Except.ok r →
      0 < p ∧ 0 ≤ r ∧ r = (round_half_even (100 * p) : ℚ) / 100 ∧ (100 * r).den = 1) ∧
    (∀ s r : String, validate_sku s = Except.ok r →
      r = s ∧ sku_core s ≠ [] ∧ ∀ c ∈ sku_core s, skuClassChar c = true) ∧
    (∀ s : String, sku_core s ≠ [] → (∀ c ∈ sku_core s, skuClassChar c = true) →
      validate_sku s = Except.ok s) := by
  refine ⟨?_, ?_, ?_, ?_⟩
  · intro q r h
    unfold validate_quantity at h
    split at h
    · exact Except.noConfusion h
    next hq =>
      cases h
      exact ⟨lt_of_not_le hq, rfl⟩
  · intro p r h
    unfold validate_prices at h
    split at h
    · exact Except.noConfusion h
    next hp =>
      cases h
      have hp2 : 0 < p := lt_of_not_le hp
      have hz : (0 : ℤ) ≤ round_half_even (100 * p) :=
        round_half_even_nonneg (by positivity)
      refine ⟨hp2, ?_, rfl, ?_⟩
      · exact div_nonneg (by exact_mod_cast hz) (by norm_num)
      · rw [mul_comm, div_mul_cancel₀ _ (by norm_num : (100 : ℚ) ≠ 0)]
        exact Rat.den_intCast _
  · intro s r h
    unfold validate_sku at h
    split at h
    next hm =>
      cases h
      unfold re_match_sku at hm
      rw [Bool.and_eq_true] at hm
      rcases hm with ⟨h1, h2⟩
      refine ⟨rfl, ?_, fun c hc => List.all_eq_true.mp h2 c hc⟩
      intro hc
      rw [hc] at h1
      exact absurd h1 (by decide)
    · exact Except.noConfusion h
  · intro s hne hall
    have hm : re_match_sku s = true := by
      unfold re_match_sku
      rw [Bool.and_eq_true]
      constructor
      · cases hcore : sku_core s with
        | nil => exact absurd hcore hne
        | cons c cs => rfl
      · exact List.all_eq_true.mpr hall
    unfold validate_sku
    rw [if_pos hm]

/-- Witness for C8 amended at concrete validator inputs, including the
trailing-newline SKU accepted because of the `$` semantics. -/
theorem C8_validators_amended_witness :
    (0 < (3 : ℤ) ∧ (3 : ℤ) = 3) ∧
    (0 < (5 : ℚ) ∧ 0 ≤ ((round_half_even (100 * 5) : ℤ) : ℚ) / 100 ∧
      (((round_half_even (100 * 5) : ℤ) : ℚ) / 100) =
        ((round_half_even (100 * 5) : ℤ) : ℚ) / 100 ∧
      (100 * (((round_half_even (100 * 5) : ℤ) : ℚ) / 100)).den = 1) ∧
    ("ABC-1" = "ABC-1" ∧ sku_core "ABC-1" ≠ [] ∧
      ∀ c ∈ sku_core "ABC-1", skuClassChar c = true) ∧
    validate_sku "AB-1\n" = Except.ok "AB-1\n" :=
  ⟨C8_validators_amended.1 3 3 (by decide),
   C8_validators_amended.2.1 5 _ (by
     unfold validate_prices
     rw [if_neg (by norm_num : ¬ ((5 : ℚ) ≤ 0))]),
   C8_validators_amended.2.2.1 "ABC-1" "ABC-1" (by decide),
   C8_validators_amended.2.2.2 "AB-1\n" (by decide) (by decide)⟩
